import Mathlib

/-!
Shallow embedding of the Android native filesystem backend of JUCE
(`src/native/android/juce_android_Files.cpp`): directory iteration
(`DirectoryIterator::NativeIterator::Pimpl`), `File::copyInternal`,
`File::moveToTrash`, `juce_readlink` / `File::getLinkedTarget`,
`File::getSpecialLocation`, `File::isHidden`.

Files are identified by their full path strings.  External OS facilities
(the `readdir` stream contents, `stat`, `readlink`, unlink success, stream
transfer progress) are passed in as explicit oracle parameters, so the
theorems quantify over every possible behaviour of the operating system.
-/

namespace JuceAndroidFiles

/-- Model of `String::startsWithChar`: true when the first character of the
string is `c`. -/
def startsWithChar (s : String) (c : Char) : Bool :=
  match s.toList with
  | [] => false
  | a :: _ => a == c

/-- Model of libc `fnmatch` with `FNM_CASEFOLD`, for the glob constructs used
by filename wildcards: `*` (any run of characters), `?` (exactly one
character), and literal characters compared case-insensitively.  `FNM_PERIOD`
is not passed by the source, so `*` and `?` also match a leading dot. -/
def globMatch : List Char → List Char → Bool
  | [], s => s.isEmpty
  | '*' :: ps, s => s.tails.any (fun t => globMatch ps t)
  | '?' :: ps, s =>
    match s with
    | [] => false
    | _ :: cs => globMatch ps cs
  | p :: ps, s =>
    match s with
    | [] => false
    | c :: cs => (p.toLower == c.toLower) && globMatch ps cs

/-- `fnmatch (wildcardUTF8, de->d_name, FNM_CASEFOLD) == 0` from the source,
as a boolean on strings. -/
def fnmatch (pat entryName : String) : Bool :=
  globMatch pat.toList entryName.toList

/-- The data a successful `stat` call reports about a path. -/
structure StatInfo where
  isDirectory : Bool
  fileSize : Int
  modTime : Int
  creationTime : Int
  isReadOnly : Bool
deriving DecidableEq

/-- A directory entry as surfaced by one successful `next()` call: the
matched name, the hidden flag computed from the name, and the stat-derived
metadata fields, which are `none` when `stat` failed for this entry. -/
structure DirectoryEntry where
  name : String
  isDirectory : Option Bool
  isHidden : Bool
  fileSize : Option Int
  modTime : Option Int
  creationTime : Option Int
  isReadOnly : Option Bool
deriving DecidableEq

/-- Modelled from the spec: `updateStatInfoForFile` lives in the POSIX shared
code, which is not under `src/`.  Per the spec, the metadata fields are
populated from `stat`, and "if `stat` fails (e.g., entry deleted between
listing and stat), the entry is surfaced with all optional metadata fields
set to `None`". -/
def updateStatInfoForFile (statOracle : String → Option StatInfo) (path : String) :
    Option Bool × Option Int × Option Int × Option Int × Option Bool :=
  match statOracle path with
  | some i =>
    (some i.isDirectory, some i.fileSize, some i.modTime, some i.creationTime,
      some i.isReadOnly)
  | none => (none, none, none, none, none)

/-- Model of `File::isHidden`: `getFileName().startsWithChar ('.')`. -/
def fileIsHidden (fileName : String) : Bool :=
  startsWithChar fileName '.'

/-- The `DirectoryEntry` the body of `Pimpl::next` builds for a matched raw
name: metadata via `updateStatInfoForFile (parentDir + filenameFound, ...)`
and `*isHidden = filenameFound.startsWithChar ('.')`. -/
def matchedEntry (statOracle : String → Option StatInfo) (parentDir entryName : String) :
    DirectoryEntry :=
  let f := updateStatInfoForFile statOracle (parentDir ++ entryName)
  { name := entryName
    isDirectory := f.1
    isHidden := startsWithChar entryName '.'
    fileSize := f.2.1
    modTime := f.2.2.1
    creationTime := f.2.2.2.1
    isReadOnly := f.2.2.2.2 }

/-- Modelled from the spec: the joined path is `directory + "/" + name`
(`File::addTrailingSeparator` itself is not under `src/`): a separator is
appended unless the path already ends with one. -/
def addTrailingSeparator (p : String) : String :=
  if p.toList.getLast? = some '/' then p else p ++ "/"

/-- Cause of an `opendir` failure, as reported by the OS through `errno`. -/
inductive OpenFailReason where
  | notFound
  | permissionDenied
  | notADirectory
deriving DecidableEq

/-- Outcome of the `opendir` system call: a stream of raw entries in native
order (which includes "." and ".."), or a failure with its cause. -/
inductive OpendirResult where
  | ok (entries : List String)
  | err (reason : OpenFailReason)
deriving DecidableEq

/-- State of `DirectoryIterator::NativeIterator::Pimpl`: the stored parent
path, the wildcard, and the `DIR*` handle — `none` models a null handle,
`some l` a live stream with `l` the raw entries not yet consumed. -/
structure Pimpl where
  parentDir : String
  wildCard : String
  dir : Option (List String)
deriving DecidableEq

/-- Model of the `Pimpl` constructor: stores
`File::addTrailingSeparator (directory.getFullPathName())`, the wildcard, and
`opendir`'s result — a null handle on failure; the failure cause is
discarded. -/
def mkPimpl (directory wildCard : String) (r : OpendirResult) : Pimpl :=
  { parentDir := addTrailingSeparator directory
    wildCard := wildCard
    dir :=
      match r with
      | .ok es => some es
      | .err _ => none }

/-- The `for (;;)` loop of `Pimpl::next`: `readdir` raw entries until one
matches the wildcard (yield it together with the remaining stream) or the
stream is exhausted. -/
def nextLoop (statOracle : String → Option StatInfo) (parentDir wildCard : String) :
    List String → Option DirectoryEntry × List String
  | [] => (none, [])
  | n :: rest =>
    if fnmatch wildCard n then (some (matchedEntry statOracle parentDir n), rest)
    else nextLoop statOracle parentDir wildCard rest

/-- Model of `Pimpl::next`: returns `none` (C++ `false`) when the handle is
null or the stream runs out without a match, otherwise the next matching
entry; in both cases also the advanced iterator state. -/
def Pimpl.next (statOracle : String → Option StatInfo) (s : Pimpl) :
    Option DirectoryEntry × Pimpl :=
  match s.dir with
  | none => (none, s)
  | some l =>
    match nextLoop statOracle s.parentDir s.wildCard l with
    | (e, rest) => (e, { s with dir := some rest })

/-- The iterator state after `n` further calls to `Pimpl.next`. -/
def iterateNext (statOracle : String → Option StatInfo) : Nat → Pimpl → Pimpl
  | 0, s => s
  | n + 1, s => iterateNext statOracle n (Pimpl.next statOracle s).2

/-- All entries yielded by calling `Pimpl.next` repeatedly until it returns
false, with `fuel` bounding the number of calls. -/
def collectFuel (statOracle : String → Option StatInfo) : Nat → Pimpl → List DirectoryEntry
  | 0, _ => []
  | fuel + 1, s =>
    match Pimpl.next statOracle s with
    | (none, _) => []
    | (some e, s2) => e :: collectFuel statOracle fuel s2

/-- Raw entries not yet consumed by the iterator. -/
def remainingEntries (s : Pimpl) : Nat :=
  match s.dir with
  | none => 0
  | some l => l.length

/-- Every entry the native iterator yields, from construction to exhaustion:
each yielding call consumes at least one raw entry, so
`remainingEntries s + 1` calls always reach exhaustion. -/
def collectNative (statOracle : String → Option StatInfo) (s : Pimpl) :
    List DirectoryEntry :=
  collectFuel statOracle (remainingEntries s + 1) s

/-- Modelled from the spec: the `DirectoryIterator` wrapper that sits above
the native iterator is not under `src/`; per the spec, "The special entries
\".\" and \"..\" are filtered out before being surfaced to the caller". -/
def iteratorEntries (statOracle : String → Option StatInfo) (s : Pimpl) :
    List DirectoryEntry :=
  (collectNative statOracle s).filter (fun e => !(e.name == ".") && !(e.name == ".."))

/-- A terminal iterator state: the handle is null, or the stream is
exhausted. -/
def terminalState (s : Pimpl) : Prop :=
  s.dir = none ∨ s.dir = some []

/-- Model of `File::deleteFile` applied to the destination file: returns
true when the file does not exist; otherwise the oracle `ok` says whether the
OS unlink succeeds, and the file is removed exactly when it does. -/
def deleteFile (ok : Bool) (f : Option (List Nat)) : Bool × Option (List Nat) :=
  match f with
  | none => (true, none)
  | some _ => if ok then (true, none) else (false, f)

/-- Model of `File::copyInternal (dest)`, with the destination file state
threaded through.  The source holds `srcData` when `srcExists` (otherwise
`FileInputStream` fails, `getSize()` is 0, and no bytes can be streamed).
Oracles: `del1Ok` / `del2Ok` — whether the first and second
`dest.deleteFile()` can unlink an existing file; `openOk` — whether the
`FileOutputStream` opens (a failed open creates no file); `transferAvail` —
how many source bytes `writeFromInputStream (in, -1)` moves before stopping
(an I/O error partway moves fewer than the source size).  The result is the
returned `bool` paired with the final destination contents (`none` = no
destination file exists). -/
def copyInternal (srcExists : Bool) (srcData : List Nat) (dest0 : Option (List Nat))
    (del1Ok del2Ok openOk : Bool) (transferAvail : Nat) : Bool × Option (List Nat) :=
  let getSize : Nat := if srcExists then srcData.length else 0
  match deleteFile del1Ok dest0 with
  | (true, d1) =>
    if openOk then
      let written : Nat := if srcExists then min transferAvail srcData.length else 0
      let d2 : Option (List Nat) := some (srcData.take written)
      if written = getSize then (true, d2)
      else (false, (deleteFile del2Ok d2).2)
    else (false, d1)
  | (false, d1) => (false, d1)

/-- Model of `File::moveToTrash`: returns true when the file does not exist
(`if (! exists()) return true`); otherwise returns false — this backend has
no trash mechanism (the TODO branch). -/
def moveToTrash (fileExists : Bool) : Bool :=
  if !fileExists then true else false

/-- Modelled from the spec: `siblingFile (path, newLeafName)` "replaces the
last segment" (`File::getSiblingFile` is not under `src/`): everything up to
and including the last separator is kept and the new leaf appended. -/
def getSiblingFile (path leaf : String) : String :=
  String.mk ((path.toList.reverse.dropWhile (fun c => c != '/')).reverse) ++ leaf

/-- Model of `juce_readlink`: one `readlink` system call, given as an oracle
(`some target` when `file` is a symbolic link and reading its target
succeeded, `none` on failure — in particular when `file` is not a symbolic
link).  With `0 < numBytes ≤ 8192` the target is resolved as a sibling of
`file`; in every other case `defaultFile` is returned.  (On error the C code
stores `readlink`'s -1 in a `size_t`, which also fails the `numBytes <= size`
test.) -/
def juce_readlink (readlinkOracle : String → Option String)
    (file : String) (defaultFile : String) : String :=
  match readlinkOracle file with
  | some target =>
    if 0 < target.length ∧ target.length ≤ 8192 then getSiblingFile file target
    else defaultFile
  | none => defaultFile

/-- Model of `File::getLinkedTarget`: `juce_readlink` with the file itself as
the default result. -/
def getLinkedTarget (readlinkOracle : String → Option String) (path : String) :
    String :=
  juce_readlink readlinkOracle path path

/-- A concrete cyclic symlink layout: `/a/x` points to `y` and `/a/y` points
back to `x`. -/
def cycOracle : String → Option String := fun s =>
  if s = "/a/x" then some "y" else if s = "/a/y" then some "x" else none

/-- Model of `File::nonexistent`: the default-constructed `File`, whose full
path is the empty string. -/
def nonexistentFile : String := ""

/-- Model of `File::getSpecialLocation` for this backend.  Modelled from the
spec for the enum representation: `SpecialLocationType` is a closed enum of
13 location kinds (declared in `juce_File.h`, not under `src/`), and the C++
`switch` works on its integer value, so the type is embedded as `Nat` with
codes 0–12 in declaration order (home, documents, music, movies,
app-data-user, desktop, app-data-common, global-apps, temp,
invoked-executable, current-executable, current-application,
host-application); values ≥ 13 lie outside the enum.  The `Bool` component
records whether the `jassertfalse` debug assertion fired (the `default`
branch); the `String` is the returned path.  `appDataDir` models
`android.appDataDir` and `exeFile` the result of
`juce_getExecutableFile()`. -/
def getSpecialLocation (appDataDir exeFile : String) (t : Nat) : Bool × String :=
  match t with
  | 0 | 1 | 2 | 3 | 4 => (false, appDataDir)
  | 5 => (false, "~/Desktop")
  | 6 => (false, appDataDir)
  | 7 => (false, "/usr")
  | 8 => (false, "~/.temp")
  | 9 | 10 | 11 | 12 => (false, exeFile)
  | _ => (true, nonexistentFile)

/-- The name recorded in a matched entry is the raw name it was built from. -/
theorem matchedEntry_name (so : String → Option StatInfo) (p n : String) :
    (matchedEntry so p n).name = n := rfl

/-- Filtering a mapped list is mapping the filtered list. -/
theorem filter_of_map {α β : Type} (f : α → β) (q : β → Bool) (l : List α) :
    (l.map f).filter q = (l.filter (fun x => q (f x))).map f := by
  induction l with
  | nil => rfl
  | cons a t ih =>
    simp only [List.map_cons, List.filter_cons]
    by_cases h : q (f a) <;> simp [h, ih]

/-- When the scan loop reports exhaustion, it has consumed the whole raw
stream. -/
theorem nextLoop_none_rest (so : String → Option StatInfo) (p w : String) :
    ∀ l r, nextLoop so p w l = (none, r) → r = [] := by
  intro l
  induction l with
  | nil =>
    intro r h
    simp only [nextLoop, Prod.mk.injEq] at h
    exact h.2.symm
  | cons n rest ih =>
    intro r h
    by_cases hm : fnmatch w n
    · simp [nextLoop, hm] at h
    · exact ih r (by simpa [nextLoop, hm] using h)

/-- With enough fuel, repeatedly calling `next` on a live stream yields
exactly the wildcard-matching raw entries, in order, as matched entries. -/
theorem collectFuel_some_eq (so : String → Option StatInfo) (p w : String) :
    ∀ (l : List String) (fuel : Nat), l.length < fuel →
      collectFuel so fuel ⟨p, w, some l⟩
        = (l.filter (fun n => fnmatch w n)).map (matchedEntry so p) := by
  intro l
  induction l with
  | nil =>
    intro fuel h
    match fuel, h with
    | fuel + 1, _ => simp [collectFuel, Pimpl.next, nextLoop]
  | cons n rest ih =>
    intro fuel h
    match fuel, h with
    | fuel + 1, h =>
      by_cases hm : fnmatch w n
      · have hr : rest.length < fuel := by
          have := Nat.lt_of_succ_lt_succ h
          simpa using this
        simp [collectFuel, Pimpl.next, nextLoop, hm, ih fuel hr]
      · have step : collectFuel so (fuel + 1) ⟨p, w, some (n :: rest)⟩
            = collectFuel so (fuel + 1) ⟨p, w, some rest⟩ := by
          simp [collectFuel, Pimpl.next, nextLoop, hm]
        have hr : rest.length < fuel + 1 := by
          have := Nat.lt_of_succ_lt_succ h
          omega
        rw [step, ih (fuel + 1) hr]
        simp [List.filter, hm]

/-- The full native iteration yields exactly the wildcard-matching raw
entries as matched entries. -/
theorem collectNative_some_eq (so : String → Option StatInfo) (p w : String)
    (l : List String) :
    collectNative so ⟨p, w, some l⟩
      = (l.filter (fun n => fnmatch w n)).map (matchedEntry so p) :=
  collectFuel_some_eq so p w l (l.length + 1) (Nat.lt_succ_self _)

/-- The names yielded by the native iteration are exactly the
wildcard-matching raw names. -/
theorem collectNative_names (so : String → Option StatInfo) (p w : String)
    (l : List String) :
    (collectNative so ⟨p, w, some l⟩).map (fun e => e.name)
      = l.filter (fun n => fnmatch w n) := by
  rw [collectNative_some_eq, List.map_map]
  have h : ((fun e => e.name) ∘ matchedEntry so p) = fun n => n := rfl
  rw [h, List.map_id']

/-- `next` on a terminal state reports exhaustion and leaves the state
unchanged. -/
theorem next_of_terminal (so : String → Option StatInfo) (s : Pimpl)
    (h : terminalState s) : Pimpl.next so s = (none, s) := by
  obtain ⟨pd, wc, d⟩ := s
  rcases h with h | h <;> simp only at h <;> subst h <;> rfl

/-- Once `next` reports exhaustion, the resulting state is terminal. -/
theorem next_none_terminal (so : String → Option StatInfo) (s : Pimpl)
    (h : (Pimpl.next so s).1 = none) : terminalState (Pimpl.next so s).2 := by
  obtain ⟨pd, wc, d⟩ := s
  cases d with
  | none => exact Or.inl rfl
  | some l =>
    right
    rcases hnl : nextLoop so pd wc l with ⟨e, rest⟩
    simp only [Pimpl.next, hnl] at h ⊢
    cases e with
    | some v => exact absurd h (by simp)
    | none =>
      have hrest : rest = [] := nextLoop_none_rest so pd wc l rest (by rw [hnl])
      rw [hrest]

/-- Terminal states are fixed by any number of further `next` calls. -/
theorem iterateNext_of_terminal (so : String → Option StatInfo) (s : Pimpl)
    (h : terminalState s) : ∀ n, iterateNext so n s = s := by
  intro n
  induction n with
  | zero => rfl
  | succ n ih =>
    show iterateNext so n (Pimpl.next so s).2 = s
    rw [next_of_terminal so s h]
    exact ih

/-- C1: For every raw directory stream and wildcard, the names yielded by the
directory iterator are exactly the native entries matching the wildcard under
case-insensitive glob matching with "." and ".." excluded, and the special
entries "." and ".." never appear among the yielded entries. -/
theorem c1_iterator_yields_matches_excluding_dot_entries
    (so : String → Option StatInfo) (p w : String) (l : List String) :
    (iteratorEntries so ⟨p, w, some l⟩).map (fun e => e.name)
      = l.filter (fun n => fnmatch w n && (!(n == ".") && !(n == "..")))
    ∧ "." ∉ (iteratorEntries so ⟨p, w, some l⟩).map (fun e => e.name)
    ∧ ".." ∉ (iteratorEntries so ⟨p, w, some l⟩).map (fun e => e.name) := by
  have hnames : (iteratorEntries so ⟨p, w, some l⟩).map (fun e => e.name)
      = l.filter (fun n => fnmatch w n && (!(n == ".") && !(n == ".."))) := by
    unfold iteratorEntries
    rw [collectNative_some_eq, filter_of_map, List.map_map]
    have h1 : ((l.filter (fun n => fnmatch w n)).filter
          (fun x => !((matchedEntry so p x).name == ".")
            && !((matchedEntry so p x).name == ".."))).map
          ((fun e => e.name) ∘ matchedEntry so p)
        = ((l.filter (fun n => fnmatch w n)).filter
          (fun x => !(x == ".") && !(x == ".."))).map (fun x => x) := rfl
    rw [h1, List.map_id', List.filter_filter]
    apply List.filter_congr
    intro x _
    simp [Bool.and_comm]
  refine ⟨hnames, ?_, ?_⟩
  · rw [hnames]
    intro hmem
    have := (List.mem_filter.1 hmem).2
    simp at this
  · rw [hnames]
    intro hmem
    have := (List.mem_filter.1 hmem).2
    simp at this

/-- C3: when `stat` fails on a matched entry, that entry is still surfaced —
with every optional metadata field `none` — and the walk is not aborted: the
yielded names are still exactly the wildcard matches, whatever the stat
oracle does. -/
theorem c3_stat_failure_surfaced_with_none_metadata
    (so : String → Option StatInfo) (p w : String) (l : List String)
    (nm : String) (hmem : nm ∈ l) (hmatch : fnmatch w nm = true)
    (hstat : so (p ++ nm) = none) :
    (∃ e, e ∈ collectNative so ⟨p, w, some l⟩ ∧ e.name = nm
       ∧ e.isDirectory = none ∧ e.fileSize = none ∧ e.modTime = none
       ∧ e.creationTime = none ∧ e.isReadOnly = none)
    ∧ (collectNative so ⟨p, w, some l⟩).map (fun e => e.name)
        = l.filter (fun n => fnmatch w n) := by
  constructor
  · refine ⟨matchedEntry so p nm, ?_, rfl, ?_, ?_, ?_, ?_, ?_⟩
    · rw [collectNative_some_eq]
      exact List.mem_map_of_mem _ (List.mem_filter.2 ⟨hmem, hmatch⟩)
    all_goals simp [matchedEntry, updateStatInfoForFile, hstat]
  · exact collectNative_names so p w l

/-- C3 witness: a concrete two-entry directory whose stat oracle always
fails: the matched entry `a.txt` is surfaced with all metadata `none`, and
both entries are still yielded. -/
theorem c3_stat_failure_witness :
    ("a.txt" ∈ ["a.txt", "b.txt"] ∧ fnmatch "*" "a.txt" = true
      ∧ (fun _ => (none : Option StatInfo)) ("/d/" ++ "a.txt") = none)
    ∧ ((∃ e, e ∈ collectNative (fun _ => none) ⟨"/d/", "*", some ["a.txt", "b.txt"]⟩
          ∧ e.name = "a.txt" ∧ e.isDirectory = none ∧ e.fileSize = none
          ∧ e.modTime = none ∧ e.creationTime = none ∧ e.isReadOnly = none)
        ∧ (collectNative (fun _ => none)
              ⟨"/d/", "*", some ["a.txt", "b.txt"]⟩).map (fun e => e.name)
            = ["a.txt", "b.txt"].filter (fun n => fnmatch "*" n)) :=
  ⟨⟨by decide, by decide, rfl⟩,
    c3_stat_failure_surfaced_with_none_metadata (fun _ => none) "/d/" "*"
      ["a.txt", "b.txt"] "a.txt" (by decide) (by decide) rfl⟩

/-- C4: iterator exhaustion is terminal and idempotent: once `next` has
returned false, every later call — after any number of further `next`
calls — still returns false; a terminal state is never left. -/
theorem c4_exhaustion_terminal (so : String → Option StatInfo) (s : Pimpl)
    (h : (Pimpl.next so s).1 = none) :
    ∀ n : Nat, (Pimpl.next so (iterateNext so n (Pimpl.next so s).2)).1 = none := by
  intro n
  have ht := next_none_terminal so s h
  rw [iterateNext_of_terminal so _ ht n, next_of_terminal so _ ht]

/-- C4 witness: a concrete iterator whose only raw entry does not match the
wildcard: the first call returns false, and so does the call made after two
further calls. -/
theorem c4_exhaustion_witness :
    ((Pimpl.next (fun _ => (none : Option StatInfo))
        ⟨"/d/", "*.txt", some ["notes.md"]⟩).1 = none)
    ∧ (Pimpl.next (fun _ => (none : Option StatInfo))
        (iterateNext (fun _ => none) 2
          (Pimpl.next (fun _ => none) ⟨"/d/", "*.txt", some ["notes.md"]⟩).2)).1
        = none :=
  ⟨by decide,
    c4_exhaustion_terminal (fun _ => none) ⟨"/d/", "*.txt", some ["notes.md"]⟩
      (by decide) 2⟩

/-- C5 counterexample: `opendir` failures with different causes (`ENOENT`
versus `EACCES`) produce bit-for-bit identical iterator states, so no value
of type `OpenError` distinguishing NotFound from PermissionDenied is returned
to the caller; the handle is simply null. -/
theorem c5_open_error_counterexample :
    mkPimpl "/missing" "*" (.err .notFound)
      = mkPimpl "/missing" "*" (.err .permissionDenied)
    ∧ (mkPimpl "/missing" "*" (.err .notFound)).dir = none := ⟨rfl, rfl⟩

/-- C5 (amended): an `opendir` failure is silently swallowed: whatever the
failure cause, the constructor stores a null handle — the state is identical
for every cause, so none is distinguishable — and `next` just returns false,
exactly as for an empty directory; no typed error reaches the caller. -/
theorem c5_amended_open_failure_silently_swallowed
    (d w : String) (r1 r2 : OpenFailReason) (so : String → Option StatInfo) :
    mkPimpl d w (.err r1) = mkPimpl d w (.err r2)
    ∧ (Pimpl.next so (mkPimpl d w (.err r1))).1 = none := ⟨rfl, rfl⟩

/-- C8: a matched entry's hidden flag is computed by the leading-dot rule of
`File::isHidden`, and hidden-ness is orthogonal to wildcard matching: every
raw entry matched by the wildcard — dotfile or not — is yielded, and the
yielded names are exactly the wildcard matches. -/
theorem c8_isHidden_leading_dot_wildcard_orthogonal
    (so : String → Option StatInfo) (p w : String) (l : List String)
    (nm : String) (hmem : nm ∈ l) (hmatch : fnmatch w nm = true) :
    (∃ e, e ∈ collectNative so ⟨p, w, some l⟩ ∧ e.name = nm
       ∧ e.isHidden = fileIsHidden nm)
    ∧ (collectNative so ⟨p, w, some l⟩).map (fun e => e.name)
        = l.filter (fun n => fnmatch w n) := by
  constructor
  · refine ⟨matchedEntry so p nm, ?_, rfl, rfl⟩
    rw [collectNative_some_eq]
    exact List.mem_map_of_mem _ (List.mem_filter.2 ⟨hmem, hmatch⟩)
  · exact collectNative_names so p w l

/-- C8 witness: the dotfile `.profile` is matched by the wildcard `*`, is
yielded, and carries `isHidden = fileIsHidden ".profile"`. -/
theorem c8_isHidden_witness :
    (".profile" ∈ [".profile", "a.txt"] ∧ fnmatch "*" ".profile" = true)
    ∧ ((∃ e, e ∈ collectNative (fun _ => (none : Option StatInfo))
            ⟨"/tmp/x/", "*", some [".profile", "a.txt"]⟩
          ∧ e.name = ".profile" ∧ e.isHidden = fileIsHidden ".profile")
        ∧ (collectNative (fun _ => none)
              ⟨"/tmp/x/", "*", some [".profile", "a.txt"]⟩).map (fun e => e.name)
            = [".profile", "a.txt"].filter (fun n => fnmatch "*" n)) :=
  ⟨⟨by decide, by decide⟩,
    c8_isHidden_leading_dot_wildcard_orthogonal (fun _ => none) "/tmp/x/" "*"
      [".profile", "a.txt"] ".profile" (by decide) (by decide)⟩

/-- C2: copy is atomic from the caller's perspective: whenever the initial
delete of any pre-existing destination succeeds and the cleanup delete can
unlink, the run ends either with `true` and a complete correct copy of the
source contents at the destination, or with `false` and no destination file
at all — for every open outcome and every partial transfer length. -/
theorem c2_copy_atomic (srcExists : Bool) (srcData : List Nat)
    (dest0 : Option (List Nat)) (del1Ok del2Ok openOk : Bool) (transferAvail : Nat)
    (hdel1 : (deleteFile del1Ok dest0).1 = true) (hdel2 : del2Ok = true) :
    copyInternal srcExists srcData dest0 del1Ok del2Ok openOk transferAvail
        = (true, some (if srcExists then srcData else []))
    ∨ copyInternal srcExists srcData dest0 del1Ok del2Ok openOk transferAvail
        = (false, none) := by
  subst hdel2
  rcases hd : deleteFile del1Ok dest0 with ⟨b, d⟩
  have hb : b = true := by rw [hd] at hdel1; exact hdel1
  subst hb
  have hdnone : d = none := by
    cases dest0 with
    | none => simpa [deleteFile] using (congrArg Prod.snd hd).symm
    | some c =>
      by_cases hk : del1Ok
      · simpa [deleteFile, hk] using (congrArg Prod.snd hd).symm
      · simp [deleteFile, hk] at hd
  subst hdnone
  unfold copyInternal
  rw [hd]
  by_cases ho : openOk
  · simp only [ho, if_true]
    by_cases hw : (if srcExists then min transferAvail srcData.length else 0)
        = (if srcExists then srcData.length else 0)
    · left
      rw [if_pos hw]
      congr 1
      cases srcExists with
      | false => simp
      | true =>
        simp only [if_true] at hw ⊢
        rw [hw, List.take_length]
    · right
      rw [if_neg hw]
      simp [deleteFile]
  · simp [ho]

/-- C2 witness: a concrete failing run — three source bytes but the stream
stops after one — ends with the partial destination deleted. -/
theorem c2_copy_atomic_witness :
    ((deleteFile true (some [9])).1 = true ∧ true = true)
    ∧ (copyInternal true [1, 2, 3] (some [9]) true true true 1
          = (true, some (if true then [1, 2, 3] else []))
        ∨ copyInternal true [1, 2, 3] (some [9]) true true true 1
          = (false, none)) :=
  ⟨⟨rfl, rfl⟩, c2_copy_atomic true [1, 2, 3] (some [9]) true true true 1 rfl rfl⟩

/-- C9: `moveToTrash` treats an already-absent file as success, and fails on
an existing file, this platform's trash mechanism being unavailable. -/
theorem c9_moveToTrash_absent_success_present_failure :
    moveToTrash false = true ∧ moveToTrash true = false := ⟨rfl, rfl⟩

/-- C10: copying a nonexistent source reports success and leaves an empty
destination file, whenever the destination delete and open succeed — the
reported source size and the streamed byte count are both zero. -/
theorem c10_copy_nonexistent_source_succeeds (srcData : List Nat)
    (dest0 : Option (List Nat)) (del1Ok del2Ok : Bool) (transferAvail : Nat)
    (hdel1 : (deleteFile del1Ok dest0).1 = true) :
    copyInternal false srcData dest0 del1Ok del2Ok true transferAvail
      = (true, some []) := by
  rcases hd : deleteFile del1Ok dest0 with ⟨b, d⟩
  have hb : b = true := by rw [hd] at hdel1; exact hdel1
  subst hb
  unfold copyInternal
  rw [hd]
  simp

/-- C10 witness: with a nonexistent source and a deletable pre-existing
destination, the copy returns true and the destination is an empty file. -/
theorem c10_copy_nonexistent_witness :
    ((deleteFile true (some [7])).1 = true)
    ∧ copyInternal false [5] (some [7]) true false true 3 = (true, some []) :=
  ⟨rfl, c10_copy_nonexistent_source_succeeds [5] (some [7]) true false 3 rfl⟩

/-- C6 counterexample: resolving a path that is not a symbolic link
(`readlink` fails) returns the original file itself — a path, not a
`NotALinkError`; the operation has no error outcome at all. -/
theorem c6_not_a_link_counterexample :
    getLinkedTarget (fun _ => none) "/a/not-a-link" = "/a/not-a-link" := rfl

/-- C6 (amended): symlink resolution follows exactly one level of
indirection — on success the result is the sibling-resolved immediate target,
whatever the oracle says about any other path (so a cyclic symlink is never
recursed) — and when the path is not a symbolic link the file itself is
returned instead of an error. -/
theorem c6_amended_one_level_no_error
    (ora : String → Option String) (path target : String)
    (h : ora path = some target) (h1 : 0 < target.length)
    (h2 : target.length ≤ 8192) :
    getLinkedTarget ora path = getSiblingFile path target
    ∧ ∀ q : String, ora q = none → getLinkedTarget ora q = q := by
  constructor
  · unfold getLinkedTarget juce_readlink
    rw [h]
    simp [h1, h2]
  · intro q hq
    unfold getLinkedTarget juce_readlink
    rw [hq]

/-- C6 witness: on the cyclic layout `/a/x -> y -> x`, resolving `/a/x`
yields its immediate sibling target and terminates. -/
theorem c6_one_level_witness :
    (cycOracle "/a/x" = some "y" ∧ 0 < String.length "y"
      ∧ String.length "y" ≤ 8192)
    ∧ getLinkedTarget cycOracle "/a/x" = getSiblingFile "/a/x" "y" :=
  ⟨⟨rfl, by decide, by decide⟩,
    (c6_amended_one_level_no_error cycOracle "/a/x" "y" rfl (by decide)
      (by decide)).1⟩

/-- C7 counterexample: for the out-of-range enum value 13 the release-mode
result is `File::nonexistent`, whose full path is the empty string —
contradicting "never silently returns an empty path". -/
theorem c7_unmapped_empty_path_counterexample :
    getSpecialLocation "/data/app" "/bin/app" 13 = (true, nonexistentFile)
    ∧ nonexistentFile = "" := ⟨rfl, rfl⟩

/-- C7 (amended): for every `SpecialLocationType` value outside the 13 mapped
cases, `getSpecialLocation` fires the `jassertfalse` debug assertion (fail
fast in debug builds) and returns `File::nonexistent` — the empty path — as
the release-mode result, rather than a documented nonempty platform
default. -/
theorem c7_amended_unmapped_returns_nonexistent
    (appDataDir exeFile : String) (t : Nat) (h : 13 ≤ t) :
    getSpecialLocation appDataDir exeFile t = (true, nonexistentFile) := by
  obtain ⟨k, rfl⟩ := Nat.exists_eq_add_of_le' h
  rfl

/-- C7 witness: the out-of-range value 14 fires the assertion and yields
`File::nonexistent`. -/
theorem c7_unmapped_witness :
    13 ≤ 14
    ∧ getSpecialLocation "/data/app" "/bin/app" 14 = (true, nonexistentFile) :=
  ⟨by decide, c7_amended_unmapped_returns_nonexistent "/data/app" "/bin/app" 14
    (by decide)⟩

end JuceAndroidFiles
